import Mathlib

/-
Shallow embedding of the Porsche 993 RAG chat assistant
(src/api/chat.py, src/api/chat_store.py, src/ui/app.py).

External services (the language model, the embedding API, the vector
index, object storage) are modelled as explicit oracle parameters; the
network calls the code issues are tracked as an explicit event list.
Python strings are modelled as Lean String values (both are sequences
of unicode code points; Python len / slicing by code points matches
String.length / String.take).
-/

set_option maxRecDepth 100000

namespace P993

/-! ## Generic string and list helpers used by the embedding -/

/-- Last n elements of a list (Python l[-n:]). -/
def lastN (n : Nat) (l : List α) : List α := l.drop (l.length - n)

/-- startsWith on char lists (no BEq indirection, for easy proofs). -/
def startsWithChars : List Char → List Char → Bool
  | [], _ => true
  | _ :: _, [] => false
  | p :: ps, c :: cs => p == c && startsWithChars ps cs

/-- Substring occurrence test on char lists. -/
def hasSub (pat : List Char) : List Char → Bool
  | [] => pat.isEmpty
  | c :: rest => startsWithChars pat (c :: rest) || hasSub pat rest

/-- Python "pat in s" substring containment. -/
def containsSub (pat s : String) : Bool := hasSub pat.data s.data

/-- Python s.lower(), modelled as the code-point-wise lowering map. -/
def lowerStr (s : String) : String := String.mk (s.data.map Char.toLower)

/-- Python sep.join(parts): the empty string for an empty list, otherwise the
parts with sep in between. -/
def joinSep (sep : String) : List String → String
  | [] => ""
  | [x] => x
  | x :: rest => x ++ sep ++ joinSep sep rest

theorem startsWithChars_refl (l : List Char) : startsWithChars l l = true := by
  induction l with
  | nil => rfl
  | cons c cs ih => simp [startsWithChars, ih]

theorem hasSub_nil_pat (l : List Char) : hasSub [] l = true := by
  cases l with
  | nil => rfl
  | cons c cs => simp [hasSub, startsWithChars]

theorem hasSub_self (l : List Char) : hasSub l l = true := by
  cases l with
  | nil => rfl
  | cons c cs => simp [hasSub, startsWithChars_refl]

theorem startsWithChars_append (pat s t : List Char)
    (h : startsWithChars pat s = true) :
    startsWithChars pat (s ++ t) = true := by
  induction pat generalizing s with
  | nil => rfl
  | cons p ps ih =>
    cases s with
    | nil => simp [startsWithChars] at h
    | cons c cs =>
      simp only [startsWithChars, Bool.and_eq_true] at h
      simp only [List.cons_append, startsWithChars, Bool.and_eq_true]
      exact ⟨h.1, ih cs h.2⟩

theorem hasSub_append_r (pat pre s : List Char) (h : hasSub pat s = true) :
    hasSub pat (pre ++ s) = true := by
  induction pre with
  | nil => simpa using h
  | cons c cs ih =>
    simp only [List.cons_append, hasSub, Bool.or_eq_true]
    exact Or.inr ih

theorem hasSub_append_l (pat s t : List Char) (h : hasSub pat s = true) :
    hasSub pat (s ++ t) = true := by
  induction s with
  | nil =>
    simp only [hasSub, List.isEmpty_iff] at h
    subst h
    simpa using hasSub_nil_pat t
  | cons c cs ih =>
    simp only [hasSub, Bool.or_eq_true] at h
    simp only [List.cons_append, hasSub, Bool.or_eq_true]
    rcases h with h | h
    · exact Or.inl (startsWithChars_append pat (c :: cs) t h)
    · exact Or.inr (ih h)

theorem containsSub_refl (s : String) : containsSub s s = true :=
  hasSub_self s.data

theorem containsSub_append_left (pat a b : String)
    (h : containsSub pat a = true) : containsSub pat (a ++ b) = true := by
  unfold containsSub at *
  rw [String.data_append]
  exact hasSub_append_l pat.data a.data b.data h

theorem containsSub_append_right (pat a b : String)
    (h : containsSub pat b = true) : containsSub pat (a ++ b) = true := by
  unfold containsSub at *
  rw [String.data_append]
  exact hasSub_append_r pat.data a.data b.data h

theorem containsSub_joinSep (x : String) (sep : String) (l : List String)
    (h : x ∈ l) : containsSub x (joinSep sep l) = true := by
  induction l with
  | nil => simp at h
  | cons y rest ih =>
    cases rest with
    | nil =>
      simp only [List.mem_singleton] at h
      subst h
      exact containsSub_refl x
    | cons z zs =>
      simp only [List.mem_cons] at h
      rcases h with rfl | h
      · show containsSub x (x ++ sep ++ joinSep sep (z :: zs)) = true
        exact containsSub_append_left x (x ++ sep) (joinSep sep (z :: zs))
          (containsSub_append_left x x sep (containsSub_refl x))
      · show containsSub x (y ++ sep ++ joinSep sep (z :: zs)) = true
        exact containsSub_append_right x (y ++ sep) (joinSep sep (z :: zs))
          (ih (by simpa using h))

/-- First-seen-order deduplication, generalized over the already-seen set. -/
def dedupFirstAux : List String → List String → List String
  | _, [] => []
  | seen, x :: rest =>
    if x ∈ seen then dedupFirstAux seen rest
    else x :: dedupFirstAux (x :: seen) rest

/-- First-seen-order deduplication of a list of strings. -/
def dedupFirst (l : List String) : List String := dedupFirstAux [] l

/-! ## Data model -/

/-- Conversation roles (the role field of a message dict). -/
inductive Role where
  | user
  | assistant
deriving DecidableEq, Repr

/-- One conversation turn: the message dicts st.session_state.messages holds
(role, content, optional attached images; an image is referenced by its key). -/
structure ConvTurn where
  role : Role
  content : String
  images : List String := []
deriving DecidableEq, Repr

/-- The per-user car profile dict (year, model, transmission, mileage,
known_issues keys). Missing dict keys are modelled as empty strings, which is
how every use site treats them. -/
structure CarProfile where
  year : String := ""
  model : String := ""
  transmission : String := ""
  mileage : String := ""
  known_issues : String := ""
deriving DecidableEq, Repr

/-- A retrieved passage as produced by search in src/api/chat.py: the metadata
fields default to the empty string; the float relevance score never influences
any control flow modelled here, so it is carried as an integer. -/
structure Passage where
  text : String := ""
  source : String := ""
  url : String := ""
  title : String := ""
  content_type : String := ""
  relevance : Int := 0
deriving DecidableEq, Repr

/-- A conversation index entry from src/api/chat_store.py
(users/u/chats/index.json): id, title, created_at, updated_at. -/
structure IndexEntry where
  id : String
  title : String := ""
  created_at : String := ""
  updated_at : String := ""
deriving DecidableEq, Repr

/-! ## chat_store.py: load_index and delete_conversation -/

/-- Failure modes of the S3 read in load_index: the try block catches every
exception kind uniformly. -/
inductive StoreErr where
  | noSuchKey
  | malformedJson
  | connectionError
  | credentialError
deriving DecidableEq, Repr

/-- load_index from src/api/chat_store.py. The S3 get_object call is the
oracle s3get (error = any exception raised while fetching); json.loads is the
oracle parse (none = a decode exception). Any exception inside the try block
yields the empty list. -/
def load_index (s3get : Except StoreErr String)
    (parse : String → Option (List IndexEntry)) : List IndexEntry :=
  match s3get with
  | .error _ => []
  | .ok body =>
    match parse body with
    | none => []
    | some l => l

/-- delete_conversation from src/api/chat_store.py, pure core: the S3
conversation-file and image deletions are wrapped in a catch-all and cannot
affect the returned index; the function then filters the index by id and
returns it.  index = [c for c in index if c["id"] != conv_id]. -/
def delete_conversation (conv_id : String) (index : List IndexEntry) :
    List IndexEntry :=
  index.filter (fun c => c.id != conv_id)

/-! Lemmas for delete_conversation -/

theorem delete_eq_of_not_mem (conv_id : String) (index : List IndexEntry)
    (h : conv_id ∉ index.map IndexEntry.id) :
    delete_conversation conv_id index = index := by
  induction index with
  | nil => rfl
  | cons c rest ih =>
    simp only [List.map_cons, List.mem_cons, not_or] at h
    have hne : (c.id != conv_id) = true :=
      bne_iff_ne.mpr (fun hc => h.1 hc.symm)
    have ht := ih h.2
    simp only [delete_conversation] at ht ⊢
    simp [List.filter_cons, hne, ht]

theorem delete_length_of_mem (conv_id : String) (index : List IndexEntry)
    (hnd : (index.map IndexEntry.id).Nodup)
    (hmem : conv_id ∈ index.map IndexEntry.id) :
    (delete_conversation conv_id index).length + 1 = index.length := by
  induction index with
  | nil => simp at hmem
  | cons c rest ih =>
    simp only [List.map_cons, List.nodup_cons] at hnd
    simp only [List.map_cons, List.mem_cons] at hmem
    simp only [delete_conversation] at ih ⊢
    rcases hmem with heq | hmem
    · have hfalse : (c.id != conv_id) = false := by
        simp [bne, heq]
      have hrest : rest.filter (fun c => c.id != conv_id) = rest := by
        have := delete_eq_of_not_mem conv_id rest (by rw [heq]; exact hnd.1)
        simpa [delete_conversation] using this
      simp [List.filter_cons, hfalse, hrest]
    · have hne : (c.id != conv_id) = true :=
        bne_iff_ne.mpr (fun hc => hnd.1 (hc.symm ▸ hmem))
      have := ih hnd.2 hmem
      simp only [List.filter_cons, hne, if_true, List.length_cons]
      omega

theorem delete_idem (conv_id : String) (index : List IndexEntry) :
    delete_conversation conv_id (delete_conversation conv_id index) =
      delete_conversation conv_id index := by
  induction index with
  | nil => rfl
  | cons c rest ih =>
    simp only [delete_conversation] at ih ⊢
    by_cases h : (c.id != conv_id) = true
    · simp [List.filter_cons, h, ih]
    · simp only [Bool.not_eq_true] at h
      simp [List.filter_cons, h, ih]

/-- C9: delete_conversation removes the given id from the index (exactly one
entry shorter under the one-entry-per-id invariant, stated as Nodup of the id
column), returns the index unchanged when the id is absent, and is idempotent;
the embedded function is total, so no error is raised. -/
theorem c9_delete_conversation :
    (∀ (conv_id : String) (index : List IndexEntry),
      (index.map IndexEntry.id).Nodup →
      conv_id ∈ index.map IndexEntry.id →
      (delete_conversation conv_id index).length + 1 = index.length) ∧
    (∀ (conv_id : String) (index : List IndexEntry),
      conv_id ∉ index.map IndexEntry.id →
      delete_conversation conv_id index = index) ∧
    (∀ (conv_id : String) (index : List IndexEntry),
      delete_conversation conv_id
          (delete_conversation conv_id index) =
        delete_conversation conv_id index) :=
  ⟨delete_length_of_mem, delete_eq_of_not_mem, delete_idem⟩

/-- C9 witness: on a concrete two-entry index, deleting a present id shrinks
the index by one and deleting an absent id leaves it unchanged. -/
theorem c9_delete_conversation_witness :
    (delete_conversation "a"
        [⟨"a", "t1", "c1", "u1"⟩, ⟨"b", "t2", "c2", "u2"⟩]).length + 1 = 2 ∧
    delete_conversation "z"
        [⟨"a", "t1", "c1", "u1"⟩, ⟨"b", "t2", "c2", "u2"⟩] =
      [⟨"a", "t1", "c1", "u1"⟩, ⟨"b", "t2", "c2", "u2"⟩] :=
  ⟨c9_delete_conversation.1 "a"
      [⟨"a", "t1", "c1", "u1"⟩, ⟨"b", "t2", "c2", "u2"⟩]
      (by decide) (by decide),
   c9_delete_conversation.2.1 "z"
      [⟨"a", "t1", "c1", "u1"⟩, ⟨"b", "t2", "c2", "u2"⟩]
      (by decide)⟩

/-- C10: load_index is total over storage failures: every failure of the S3
get (missing object, connection or credential error) and every JSON decode
failure yields the empty list, and that result is indistinguishable from a
successfully loaded empty index. -/
theorem c10_load_index_total :
    (∀ (e : StoreErr) (parse : String → Option (List IndexEntry)),
      load_index (.error e) parse = []) ∧
    (∀ (body : String) (parse : String → Option (List IndexEntry)),
      parse body = none → load_index (.ok body) parse = []) ∧
    (∀ (body : String) (parse : String → Option (List IndexEntry))
        (l : List IndexEntry),
      parse body = some l → load_index (.ok body) parse = l) ∧
    (∀ (e : StoreErr) (parse : String → Option (List IndexEntry)),
      parse "[]" = some [] →
      load_index (.error e) parse = load_index (.ok "[]") parse) := by
  refine ⟨fun e parse => rfl, fun body parse h => ?_, fun body parse l h => ?_,
    fun e parse h => ?_⟩
  · simp [load_index, h]
  · simp [load_index, h]
  · simp [load_index, h]

/-- C10 witness: with a concrete parser that decodes the empty JSON list, a
connection error and a malformed body both load as the empty index, equal to
the genuinely empty index. -/
theorem c10_load_index_total_witness :
    load_index (.error .connectionError)
        (fun b => if b = "[]" then some [] else none) = [] ∧
    load_index (.ok "not json")
        (fun b => if b = "[]" then some [] else none) = [] ∧
    load_index (.error .connectionError)
        (fun b => if b = "[]" then some [] else none) =
      load_index (.ok "[]")
        (fun b => if b = "[]" then some [] else none) :=
  ⟨c10_load_index_total.1 .connectionError _,
   c10_load_index_total.2.1 "not json" _ (by decide),
   c10_load_index_total.2.2.2 .connectionError _ (by decide)⟩

/-! ## chat.py: build_system_prompt (dynamic system prompt) -/

/-- Advice hint emitted when the model name contains targa. -/
def targaHint : String :=
  "- Targa-specific issues (roof seal leaks, body flex, Targa top mechanism)"

/-- Advice hint emitted when the model name contains cabriolet or cab. -/
def cabHint : String :=
  "- Cabriolet-specific issues (soft top mechanism, hydraulics, rear window)"

/-- Advice hint emitted when the transmission contains tiptronic. -/
def tipHint : String :=
  "- Tiptronic-specific advice (fluid changes, shift adaptation, valve body)"

/-- Advice hint emitted when the model name contains turbo. -/
def turboHint : String :=
  "- Turbo-specific advice (boost control, wastegate, intercooler, K24/K16 turbos)"

/-- Advice hint emitted whenever a mileage is set. -/
def mileageHint (mileage : String) : String :=
  "- Mileage-appropriate maintenance (what\x27s due at " ++ mileage ++ " miles)"

/-- The advice_lines list built inside build_system_prompt: conditions are
case-insensitive substring tests on the profile, appended in the fixed source
order targa, cabriolet, tiptronic, turbo, mileage. -/
def adviceLines (p : CarProfile) : List String :=
  (if containsSub "targa" (lowerStr p.model) then [targaHint] else []) ++
  (if containsSub "cabriolet" (lowerStr p.model) ||
      containsSub "cab" (lowerStr p.model) then [cabHint] else []) ++
  (if containsSub "tiptronic" (lowerStr p.transmission) then [tipHint] else []) ++
  (if containsSub "turbo" (lowerStr p.model) then [turboHint] else []) ++
  (if p.mileage != "" then [mileageHint p.mileage] else [])

/-- The car_section string for a present profile. -/
def carSectionSome (p : CarProfile) : String :=
  let base := "THE OWNER\x27S CAR:\n- " ++ p.year ++ " Porsche 911 (" ++
    p.model ++ ")\n- " ++ p.transmission ++ " transmission\n- Approximately " ++
    p.mileage ++ " miles"
  let base := if p.known_issues != "" then
      base ++ "\n- Known issues: " ++ p.known_issues
    else base
  if adviceLines p ≠ [] then
    base ++ "\nAlways tailor your advice to this specific car. For example:\n" ++
      joinSep "\n" (adviceLines p)
  else base

/-- The car_section string for an absent profile (generic fallback). -/
def carSectionNone : String :=
  "THE OWNER\x27S CAR:\n- Porsche 911 (993)\n- No specific details provided yet.\nGive general 993 advice until the owner shares their car details."

/-- Fixed template text before the car_section slot. -/
def promptHead : String :=
  "You are an expert Porsche 993 mechanic and advisor. You help the owner\ndiagnose problems, perform repairs, and maintain their car.\n\n"

/-- Fixed template text after the car_section slot (policy rules; the source
file stores its em dash as the three code points 201A 00C4 00EE, reproduced
here verbatim). -/
def promptTail : String :=
  "\n\nYou have access to real knowledge from Porsche forums (Pelican Parts, Rennlist, 911uk,\n6SpeedOnline, TIPEC, Carpokes) and technical articles, DIY guides, and YouTube transcripts\nfrom experienced 993 owners and mechanics.\n\nRULES:\n1. Base your answers on the provided forum knowledge. If the sources contain\n   relevant information, cite it naturally (e.g. \"According to a Rennlist thread...\"\n   or \"A Pelican Parts tech article explains...\").\n2. If the sources don\x27t contain enough info to fully answer, say so honestly\n   and share what you do know from general 993 knowledge.\n3. Include specific part numbers, torque specs, and step-by-step procedures\n   when available in the sources. Format part numbers in bold so they stand out.\n4. When there\x27s disagreement in the forums, mention the different perspectives.\n5. Always err on the side of caution with safety-critical repairs (brakes,\n   suspension, steering). Recommend professional help when appropriate.\n6. Be conversational and practical, like a knowledgeable friend in the garage.\n7. You don\x27t need to repeat the car specs back to the owner every time ‚Äî they\n   know what they drive. Just give relevant, tailored advice.\n8. When discussing repairs that require parts, always mention the OEM part\n   numbers if they appear in the forum knowledge so the owner can order them.\n9. When the user shares photos of their car, parts, or issues:\n   - Describe what you see in the image clearly and specifically.\n   - Identify any parts, damage, wear patterns, leaks, or issues visible.\n   - Cross-reference what you see with the forum knowledge provided.\n   - If you can identify part numbers or specific components, mention them.\n   - Be specific about location and severity of any visible issues.\n10. When your source context references repair photos, diagrams, or step-by-step\n    images, describe what those images would show so the user understands the\n    procedure visually.\n\nWhen you reference source material, mention the source forum and thread topic\nso the user can look it up for more detail."

/-- build_system_prompt from src/api/chat.py: the fixed template with the
car_section slot filled from the profile (or the generic fallback). -/
def build_system_prompt (car_profile : Option CarProfile) : String :=
  match car_profile with
  | some p => promptHead ++ carSectionSome p ++ promptTail
  | none => promptHead ++ carSectionNone ++ promptTail

/-- The backwards-compatibility constant SYSTEM_PROMPT. -/
def SYSTEM_PROMPT : String := build_system_prompt none

theorem ite_singleton_sublist (c : Prop) [Decidable c] (x : α) :
    List.Sublist (if c then [x] else []) [x] := by
  split
  · exact List.Sublist.refl _
  · exact List.nil_sublist _

theorem adviceLines_sublist (p : CarProfile) :
    List.Sublist (adviceLines p)
      [targaHint, cabHint, tipHint, turboHint, mileageHint p.mileage] := by
  unfold adviceLines
  simp only [List.append_assoc]
  exact List.Sublist.append (ite_singleton_sublist _ _)
    (List.Sublist.append (ite_singleton_sublist _ _)
      (List.Sublist.append (ite_singleton_sublist _ _)
        (List.Sublist.append (ite_singleton_sublist _ _)
          (ite_singleton_sublist _ _))))

theorem mem_adviceLines_containsSub (p : CarProfile) (h : String)
    (hmem : h ∈ adviceLines p) :
    containsSub h (build_system_prompt (some p)) = true := by
  have hne : adviceLines p ≠ [] := List.ne_nil_of_mem hmem
  have hjoin : containsSub h (joinSep "\n" (adviceLines p)) = true :=
    containsSub_joinSep h "\n" (adviceLines p) hmem
  unfold build_system_prompt carSectionSome
  simp only [hne, if_true]
  apply containsSub_append_left
  apply containsSub_append_right
  split
  · apply containsSub_append_right
    exact hjoin
  · apply containsSub_append_right
    exact hjoin

/-- The concrete profile from the specification scenario. -/
def targaTipProfile : CarProfile :=
  { year := "1996", model := "993 Targa", transmission := "Tiptronic",
    mileage := "80,000", known_issues := "" }

/-- C4: build_system_prompt applies the deterministic, case-insensitive
substring rule table: each firing condition puts its hint into the output,
co-firing hints are kept in the fixed source order (advice_lines is always a
sublist of the fully fired hint sequence), and on the concrete profile
model 993 Targa, transmission Tiptronic, mileage 80,000 the output contains
the Targa, Tiptronic and mileage hints and not the Turbo hint. -/
theorem c4_build_system_prompt_rule_table :
    (∀ p : CarProfile, containsSub "targa" (lowerStr p.model) = true →
      containsSub targaHint (build_system_prompt (some p)) = true) ∧
    (∀ p : CarProfile, (containsSub "cabriolet" (lowerStr p.model) ||
        containsSub "cab" (lowerStr p.model)) = true →
      containsSub cabHint (build_system_prompt (some p)) = true) ∧
    (∀ p : CarProfile, containsSub "tiptronic" (lowerStr p.transmission) = true →
      containsSub tipHint (build_system_prompt (some p)) = true) ∧
    (∀ p : CarProfile, containsSub "turbo" (lowerStr p.model) = true →
      containsSub turboHint (build_system_prompt (some p)) = true) ∧
    (∀ p : CarProfile, p.mileage ≠ "" →
      containsSub (mileageHint p.mileage) (build_system_prompt (some p)) = true) ∧
    (∀ p : CarProfile, List.Sublist (adviceLines p)
      [targaHint, cabHint, tipHint, turboHint, mileageHint p.mileage]) ∧
    (containsSub targaHint (build_system_prompt (some targaTipProfile)) = true ∧
     containsSub tipHint (build_system_prompt (some targaTipProfile)) = true ∧
     containsSub (mileageHint "80,000")
        (build_system_prompt (some targaTipProfile)) = true ∧
     containsSub turboHint (build_system_prompt (some targaTipProfile)) = false) := by
  refine ⟨fun p h => ?_, fun p h => ?_, fun p h => ?_, fun p h => ?_,
    fun p h => ?_, adviceLines_sublist, ?_, ?_, ?_, ?_⟩
  · exact mem_adviceLines_containsSub p targaHint (by simp [adviceLines, h])
  · exact mem_adviceLines_containsSub p cabHint (by simp [adviceLines, h])
  · exact mem_adviceLines_containsSub p tipHint (by simp [adviceLines, h])
  · exact mem_adviceLines_containsSub p turboHint (by simp [adviceLines, h])
  · exact mem_adviceLines_containsSub p (mileageHint p.mileage)
      (by simp [adviceLines, bne_iff_ne.mpr h])
  · decide
  · decide
  · decide
  · decide

/-- C4 witness: the rule-table directions applied at the concrete scenario
profile (targa fires, tiptronic fires, mileage fires). -/
theorem c4_build_system_prompt_rule_table_witness :
    containsSub targaHint (build_system_prompt (some targaTipProfile)) = true ∧
    containsSub tipHint (build_system_prompt (some targaTipProfile)) = true ∧
    containsSub (mileageHint "80,000")
      (build_system_prompt (some targaTipProfile)) = true :=
  ⟨c4_build_system_prompt_rule_table.1 targaTipProfile (by decide),
   c4_build_system_prompt_rule_table.2.2.1 targaTipProfile (by decide),
   c4_build_system_prompt_rule_table.2.2.2.2.1 targaTipProfile (by decide)⟩

/-! ## chat.py: build_context -/

/-- One numbered context block: header [Source i] title, plus (source) when
the source field is nonempty, newline, passage text. -/
def contextBlock (i : Nat) (src : Passage) : String :=
  let header := "[Source " ++ toString i ++ "] " ++ src.title
  let header := if src.source != "" then header ++ " (" ++ src.source ++ ")"
    else header
  header ++ "\n" ++ src.text

/-- The context_parts list built by the enumerate(sources, 1) loop. -/
def contextPartsFrom (i : Nat) : List Passage → List String
  | [] => []
  | s :: rest => contextBlock i s :: contextPartsFrom (i + 1) rest

/-- context_parts for a source list, numbering from 1. -/
def context_parts (sources : List Passage) : List String :=
  contextPartsFrom 1 sources

/-- The fixed-width rule: 60 equals signs. -/
def rule60 : String := String.mk (List.replicate 60 '=')

/-- build_context from src/api/chat.py, exactly as written there:
a leading blank line, the 60-character rule once, then the blocks joined by
a blank line (the join separator is only the two newlines). -/
def build_context (sources : List Passage) : String :=
  "\n\n" ++ rule60 ++ joinSep "\n\n" (context_parts sources)

/-- Modelled from the spec: build_context as the claim words it, with the
fixed-width rule separating consecutive blocks. Used only for the refinement
comparison against the source function above. -/
def build_context_claim (sources : List Passage) : String :=
  "\n\n" ++ rule60 ++ joinSep ("\n\n" ++ rule60 ++ "\n\n") (context_parts sources)

/-- A concrete two-passage retrieval result. -/
def pA : Passage :=
  { text := "text one", source := "rennlist", url := "u1",
    title := "Title One", content_type := "forum", relevance := 1 }

/-- A second concrete passage with a different url. -/
def pB : Passage :=
  { text := "text two", source := "pelican", url := "u2",
    title := "Title Two", content_type := "forum", relevance := 1 }

/-- C5 counterexample: on two passages, build_context emits the 60-character
rule only once, before the first block; the two blocks are separated only by
a blank line (the part after the rule contains no equals sign at all), so the
claimed rule-separated shape does not hold. -/
theorem c5_build_context_counterexample :
    build_context [pA, pB] =
      "\n\n" ++ rule60 ++ (contextBlock 1 pA ++ "\n\n" ++ contextBlock 2 pB) ∧
    containsSub "=" (contextBlock 1 pA ++ "\n\n" ++ contextBlock 2 pB) = false ∧
    build_context [pA, pB] ≠ build_context_claim [pA, pB] := by
  refine ⟨by decide, by decide, by decide⟩

theorem contextPartsFrom_length (l : List Passage) :
    ∀ j : Nat, (contextPartsFrom j l).length = l.length := by
  induction l with
  | nil => intro j; rfl
  | cons s rest ih =>
    intro j
    simp only [contextPartsFrom, List.length_cons, ih (j + 1)]

theorem contextPartsFrom_getElem (l : List Passage) :
    ∀ (j i : Nat),
      (contextPartsFrom j l)[i]? = l[i]?.map (fun s => contextBlock (j + i) s) := by
  induction l with
  | nil => intro j i; simp [contextPartsFrom]
  | cons s rest ih =>
    intro j i
    cases i with
    | zero => simp [contextPartsFrom]
    | succ n =>
      have hn : j + 1 + n = j + (n + 1) := by omega
      simp only [contextPartsFrom, List.getElem?_cons_succ, ih (j + 1) n, hn]

/-- C5 amended: build_context prepends a blank line and the 60-character rule
once and then joins the numbered blocks with a blank line (the rule is not
repeated between blocks); block i is [Source i] title, with (source) only
when the source is nonempty, then a newline and the text; input order and
count are preserved; the empty input yields exactly the leading blank line
plus the rule; the function is total, so it never throws. -/
theorem c5_build_context_amended :
    (∀ sources : List Passage, build_context sources =
      "\n\n" ++ rule60 ++ joinSep "\n\n" (context_parts sources)) ∧
    build_context [] = "\n\n" ++ rule60 ∧
    (∀ sources : List Passage,
      (context_parts sources).length = sources.length) ∧
    (∀ (sources : List Passage) (i : Nat),
      (context_parts sources)[i]? =
        sources[i]?.map (fun s => contextBlock (i + 1) s)) := by
  refine ⟨fun sources => rfl, by decide, fun sources =>
    contextPartsFrom_length sources 1, fun sources i => ?_⟩
  rw [context_parts, contextPartsFrom_getElem sources 1 i]
  have h1 : 1 + i = i + 1 := by omega
  rw [h1]

/-! ## chat.py: part-number extraction and parts links -/

/-- The regex metacharacter w class over code points as Python applies it to
the characters involved here (letters, digits, underscore). -/
def isWordChar (c : Char) : Bool := c.isAlphanum || c == '_'

/-- The separator class of the part-number pattern: dot or dash. -/
def isSepChar (c : Char) : Bool := c == '.' || c == '-'

/-- One attempt of the part-number regex PART_NUMBER_RE at the current
position: three digits, separator, three digits, separator, three digits,
separator, two digits, then a word boundary (end of input or a non-word
character). Returns the matched code points and the rest of the input. -/
def matchPN : List Char → Option (List Char × List Char)
  | a :: b :: c :: s1 :: d :: e :: f :: s2 :: g :: h :: i :: s3 :: j :: k :: rest =>
    if a.isDigit && b.isDigit && c.isDigit && isSepChar s1 &&
       d.isDigit && e.isDigit && f.isDigit && isSepChar s2 &&
       g.isDigit && h.isDigit && i.isDigit && isSepChar s3 &&
       j.isDigit && k.isDigit &&
       (match rest with | [] => true | r :: _ => !isWordChar r) then
      some ([a, b, c, s1, d, e, f, s2, g, h, i, s3, j, k], rest)
    else none
  | _ => none

/-- The left-to-right, non-overlapping scan of re.findall: a match may only
start at a word boundary (start of input or after a non-word character);
after a match the scan resumes right after it. Fuel bounds the recursion;
one unit per consumed character always suffices. -/
def scanPN : Nat → Option Char → List Char → List String
  | 0, _, _ => []
  | _ + 1, _, [] => []
  | fuel + 1, prev, c :: cs =>
    let boundary := match prev with | none => true | some p => !isWordChar p
    if boundary then
      match matchPN (c :: cs) with
      | some (m, rest) => String.mk m :: scanPN fuel m.getLast? rest
      | none => scanPN fuel (some c) cs
    else scanPN fuel (some c) cs

/-- PART_NUMBER_RE.findall(text). -/
def findallPN (text : String) : List String :=
  scanPN (text.data.length + 1) none text.data

/-- extract_part_numbers from src/api/chat.py: list(set(findall)). The
iteration order of a Python set is unspecified; it is modelled as first-seen
order, and every theorem that could depend on the order is stated
order-robustly. -/
def extract_part_numbers (text : String) : List String :=
  dedupFirst (findallPN text)

/-- PARTS_SUPPLIERS: supplier name and search URL prefix. In the source each
URL template ends with the format placeholder, so url.format(pn) is exactly
prefix concatenated with the part number. -/
def PARTS_SUPPLIERS : List (String × String) :=
  [("Pelican Parts", "https://www.pelicanparts.com/cgi-bin/smart_search.cgi?keywords="),
   ("FCP Euro", "https://www.fcpeuro.com/parts?keyword="),
   ("Design 911", "https://www.design911.co.uk/search/?q=")]

/-- Whitespace trim at both ends of a code-point list (Python str.strip()). -/
def trimChars (l : List Char) : List Char :=
  ((l.dropWhile Char.isWhitespace).reverse.dropWhile Char.isWhitespace).reverse

/-- pn.replace("-", ".").strip(): the single-character replace is exactly a
code-point-wise map, then whitespace is stripped at both ends. -/
def cleanPN (pn : String) : String :=
  String.mk (trimChars (pn.data.map (fun c => if c == '-' then '.' else c)))

/-- One supplier markdown link for a cleaned part number. -/
def supplierLink (pn : String) (s : String × String) : String :=
  "[" ++ s.1 ++ "](" ++ s.2 ++ pn ++ ")"

/-- supplier_links: the three supplier links joined by the separator the
source file stores between them (code points 00AC 2211 around spaces). -/
def supplier_links (pn : String) : String :=
  joinSep " ¬∑ " (PARTS_SUPPLIERS.map (supplierLink pn))

/-- One entry line of the parts block for a cleaned part number. -/
def partsEntryLine (pn : String) : String :=
  "- **" ++ pn ++ "**: " ++ supplier_links pn

/-- The parts-block header line (its leading glyph is stored in the source as
code points F8FF 00FC 00F5 00ED, reproduced verbatim). -/
def partsHeader : String := "\n\n---\n**üõí Order Parts**"

/-- The loop body of generate_parts_links: normalize each part number,
skip it when its normalized form was already seen, otherwise emit its entry
line. -/
def partsLinesAux : List String → List String → List String
  | _, [] => []
  | seen, pn :: rest =>
    let pnClean := cleanPN pn
    if pnClean ∈ seen then partsLinesAux seen rest
    else partsEntryLine pnClean :: partsLinesAux (pnClean :: seen) rest

/-- generate_parts_links from src/api/chat.py: empty string for no part
numbers, otherwise the header line and the deduplicated entry lines joined
by newlines. -/
def generate_parts_links (part_numbers : List String) : String :=
  if part_numbers = [] then ""
  else joinSep "\n" (partsHeader :: partsLinesAux [] part_numbers)

/-! Lemmas for the parts-link block -/

theorem partsLinesAux_eq_dedup (pns : List String) :
    ∀ seen : List String,
      partsLinesAux seen pns =
        (dedupFirstAux seen (pns.map cleanPN)).map partsEntryLine := by
  induction pns with
  | nil => intro seen; rfl
  | cons pn rest ih =>
    intro seen
    simp only [partsLinesAux, List.map_cons, dedupFirstAux]
    by_cases h : cleanPN pn ∈ seen
    · simp [h, ih seen]
    · simp [h, ih (cleanPN pn :: seen)]

theorem dedupFirstAux_not_mem_seen (l : List String) :
    ∀ seen : List String, ∀ x ∈ dedupFirstAux seen l, x ∉ seen := by
  induction l with
  | nil => intro seen x hx; simp [dedupFirstAux] at hx
  | cons y rest ih =>
    intro seen x hx
    simp only [dedupFirstAux] at hx
    by_cases h : y ∈ seen
    · rw [if_pos h] at hx
      exact ih seen x hx
    · rw [if_neg h] at hx
      rcases List.mem_cons.mp hx with rfl | hx
      · exact h
      · intro hs
        exact ih (y :: seen) x hx (List.mem_cons_of_mem y hs)

theorem dedupFirstAux_nodup (l : List String) :
    ∀ seen : List String, (dedupFirstAux seen l).Nodup := by
  induction l with
  | nil => intro seen; simp [dedupFirstAux]
  | cons y rest ih =>
    intro seen
    simp only [dedupFirstAux]
    by_cases h : y ∈ seen
    · rw [if_pos h]; exact ih seen
    · rw [if_neg h]
      refine List.nodup_cons.mpr ⟨?_, ih (y :: seen)⟩
      intro hy
      exact dedupFirstAux_not_mem_seen rest (y :: seen) y hy
        (List.mem_cons_self y seen)

theorem mem_dedupFirstAux (l : List String) :
    ∀ (seen : List String) (x : String), x ∈ l → x ∉ seen →
      x ∈ dedupFirstAux seen l := by
  induction l with
  | nil => intro seen x hx; simp at hx
  | cons y rest ih =>
    intro seen x hx hs
    simp only [dedupFirstAux]
    by_cases h : y ∈ seen
    · rw [if_pos h]
      rcases List.mem_cons.mp hx with rfl | hx
      · exact absurd h hs
      · exact ih seen x hx hs
    · rw [if_neg h]
      by_cases hxy : x = y
      · exact hxy ▸ List.mem_cons_self _ _
      · rcases List.mem_cons.mp hx with rfl | hx
        · exact absurd rfl hxy
        · refine List.mem_cons_of_mem y (ih (y :: seen) x hx ?_)
          intro hmm
          rcases List.mem_cons.mp hmm with rfl | hmm
          · exact hxy rfl
          · exact hs hmm

theorem count_map_eq_one {α β : Type} [DecidableEq α] [DecidableEq β]
    (f : α → β) (t : α) (l : List α) (hnd : l.Nodup) (hmem : t ∈ l)
    (hinj : ∀ k, f k = f t → k = t) : (l.map f).count (f t) = 1 := by
  induction l with
  | nil => simp at hmem
  | cons a rest ih =>
    simp only [List.nodup_cons] at hnd
    rcases List.mem_cons.mp hmem with rfl | hmem
    · simp only [List.map_cons, List.count_cons_self]
      have hz : (rest.map f).count (f t) = 0 := by
        rw [List.count_eq_zero]
        intro hmm
        rcases List.mem_map.mp hmm with ⟨b, hb, hfb⟩
        exact hnd.1 (hinj b hfb ▸ hb)
      omega
    · have hat : a ≠ t := fun h => hnd.1 (h ▸ hmem)
      have hfa : f t ≠ f a := fun h => hat (hinj a h.symm)
      simp only [List.map_cons]
      rw [List.count_cons_of_ne hfa]
      exact ih hnd.2 hmem

theorem partsEntryLine_length (k : String) :
    (partsEntryLine k).length = 4 * k.length + (partsEntryLine "").length := by
  have h0 : ("" : String).length = 0 := rfl
  simp only [partsEntryLine, supplier_links, PARTS_SUPPLIERS, supplierLink,
    List.map_cons, List.map_nil, joinSep, String.length_append, h0]
  omega

theorem partsEntryLine_inj_target (k : String)
    (h : partsEntryLine k = partsEntryLine "993.116.015.04") :
    k = "993.116.015.04" := by
  have hlen : k.length = ("993.116.015.04" : String).length := by
    have hl := congrArg String.length h
    rw [partsEntryLine_length k, partsEntryLine_length "993.116.015.04"] at hl
    omega
  have hdata := congrArg String.data h
  simp only [partsEntryLine, String.data_append, List.append_assoc] at hdata
  have hcut := List.append_cancel_left hdata
  have hk : k.data = ("993.116.015.04" : String).data := by
    have hlen2 : k.data.length = ("993.116.015.04" : String).data.length := hlen
    exact (List.append_inj hcut hlen2).1
  cases k
  cases hk
  rfl

/-- The scenario text with the part number written with dots. -/
def tDot : String := "Replace the oil line 993.116.015.04 soon."

/-- The scenario text with the part number written with dashes. -/
def tDash : String := "Replace the oil line 993-116-015-04 soon."

/-- The scenario text with the part number written in both forms. -/
def tBoth : String := "Order 993.116.015.04 (also written 993-116-015-04) today."

/-- The expected parts block for the single normalized number. -/
def targetBlock : String :=
  "\n\n---\n**\uF8FFüõí Order Parts**\n- **993.116.015.04**: [Pelican Parts](https://www.pelicanparts.com/cgi-bin/smart_search.cgi?keywords=993.116.015.04) ¬∑ [FCP Euro](https://www.fcpeuro.com/parts?keyword=993.116.015.04) ¬∑ [Design 911](https://www.design911.co.uk/search/?q=993.116.015.04)"

/-- C3: whenever a text contains the part number 993.116.015.04 as a
word-bounded match (in dot form, dash form, or both), the parts block holds
exactly one entry line for its dot-normalized form; on the three scenario
texts the extraction and the full rendered block (one display key, three
supplier links built by substituting the normalized number into the three
URL templates) are computed explicitly, and the block does not depend on the
order in which the two spellings reach generate_parts_links (Python set
order is unspecified). -/
theorem c3_parts_links_dedup :
    (∀ text : String,
      "993.116.015.04" ∈ (extract_part_numbers text).map cleanPN →
      (partsLinesAux [] (extract_part_numbers text)).count
          (partsEntryLine "993.116.015.04") = 1) ∧
    extract_part_numbers tDot = ["993.116.015.04"] ∧
    extract_part_numbers tDash = ["993-116-015-04"] ∧
    extract_part_numbers tBoth = ["993.116.015.04", "993-116-015-04"] ∧
    generate_parts_links (extract_part_numbers tDot) = targetBlock ∧
    generate_parts_links (extract_part_numbers tDash) = targetBlock ∧
    generate_parts_links (extract_part_numbers tBoth) = targetBlock ∧
    generate_parts_links ["993-116-015-04", "993.116.015.04"] =
      generate_parts_links ["993.116.015.04", "993-116-015-04"] := by
  refine ⟨fun text hmem => ?_, by decide, by decide, by decide, by decide,
    by decide, by decide, by decide⟩
  rw [partsLinesAux_eq_dedup]
  refine count_map_eq_one partsEntryLine "993.116.015.04"
    (dedupFirstAux [] ((extract_part_numbers text).map cleanPN)) ?_ ?_
    partsEntryLine_inj_target
  · exact dedupFirstAux_nodup _ []
  · exact mem_dedupFirstAux _ [] _ hmem (by simp)

/-- C3 witness: the general dedup statement applied to the concrete dot-form
text, whose extraction contains the normalized number. -/
theorem c3_parts_links_dedup_witness :
    (partsLinesAux [] (extract_part_numbers tDot)).count
        (partsEntryLine "993.116.015.04") = 1 :=
  c3_parts_links_dedup.1 tDot (by decide)

/-! ## chat.py: rewrite_follow_up (query rewriting) -/

/-- The network calls the pipeline can issue, in issue order. -/
inductive NetEv where
  | llmRewrite
  | embed
  | indexQuery
  | llmComplete
  | llmStream
deriving DecidableEq, Repr

/-- Python s[:n] slicing by code points. -/
def takeStr (n : Nat) (s : String) : String := String.mk (s.data.take n)

/-- Python s.strip(). -/
def stripStr (s : String) : String := String.mk (trimChars s.data)

/-- One transcript line of the rewriter: role label, the content with an
image-count tag appended for user turns carrying images, and assistant
content cut to its first 300 code points plus an ellipsis marker when it is
longer than 300. -/
def convLine (msg : ConvTurn) : String :=
  let role := if msg.role = Role.user then "User" else "Assistant"
  let content := msg.content
  let content := if msg.role = Role.user ∧ msg.images ≠ [] then
      content ++ " [attached " ++ toString msg.images.length ++ " photo(s)]"
    else content
  let content := if msg.role = Role.assistant ∧ content.length > 300 then
      takeStr 300 content ++ "..."
    else content
  role ++ ": " ++ content

/-- The compact conversation transcript: the last four turns at most, one
line each, joined by newlines. -/
def convText (history : List ConvTurn) : String :=
  joinSep "\n" ((lastN 4 history).map convLine)

/-- The instruction message sent to the rewriting model. -/
def rewriteUserMsg (conv_text prompt : String) : String :=
  "Rewrite this follow-up question into a standalone search query that includes the necessary context from the conversation. The query should work for searching a Porsche 993 forum knowledge base.\n\nCONVERSATION:\n" ++ conv_text ++ "\n\nFOLLOW-UP QUESTION: " ++ prompt ++ "\n\nWrite ONLY the rewritten search query, nothing else. If the question is already self-contained, return it unchanged."

/-- Python falsiness of the ANTHROPIC_API_KEY environment value: unset
(None) or the empty string. -/
def keyFalsy (k : Option String) : Bool := k.getD "" == ""

/-- rewrite_follow_up from src/api/chat.py. The llm oracle stands for the
messages.create call (error = any raised exception, ok = the first content
block text); the returned event list records whether that network call was
issued. Empty history returns the prompt before anything else; a falsy key
also returns the prompt without any call; the rewritten text is accepted
only when its stripped form is nonempty and under 500 code points, and every
failure falls back to the prompt. -/
def rewrite_follow_up (llm : String → Except String String)
    (api_key : Option String) (prompt : String)
    (conversation_history : List ConvTurn) : String × List NetEv :=
  if conversation_history = [] then (prompt, [])
  else if keyFalsy api_key then (prompt, [])
  else
    let conv_text := convText conversation_history
    match llm (rewriteUserMsg conv_text prompt) with
    | .error _ => (prompt, [NetEv.llmRewrite])
    | .ok txt =>
      let rewritten := stripStr txt
      if rewritten ≠ "" ∧ rewritten.length < 500 then
        (rewritten, [NetEv.llmRewrite])
      else (prompt, [NetEv.llmRewrite])

/-- C1: with empty history the prompt is returned unchanged and no network
call is made; with nonempty history and a usable key, the rewritten text is
returned exactly when its stripped form is nonempty and under 500 code
points, and otherwise the original prompt is returned. -/
theorem c1_rewrite_follow_up :
    (∀ (llm : String → Except String String) (key : Option String)
        (prompt : String),
      rewrite_follow_up llm key prompt [] = (prompt, [])) ∧
    (∀ (llm : String → Except String String) (key : Option String)
        (prompt : String) (history : List ConvTurn) (s : String),
      history ≠ [] → keyFalsy key = false →
      llm (rewriteUserMsg (convText history) prompt) = .ok s →
      stripStr s ≠ "" → (stripStr s).length < 500 →
      rewrite_follow_up llm key prompt history =
        (stripStr s, [NetEv.llmRewrite])) ∧
    (∀ (llm : String → Except String String) (key : Option String)
        (prompt : String) (history : List ConvTurn) (s : String),
      history ≠ [] → keyFalsy key = false →
      llm (rewriteUserMsg (convText history) prompt) = .ok s →
      (stripStr s = "" ∨ 500 ≤ (stripStr s).length) →
      rewrite_follow_up llm key prompt history =
        (prompt, [NetEv.llmRewrite])) := by
  refine ⟨fun llm key prompt => rfl,
    fun llm key prompt history s h1 h2 h3 h4 h5 => ?_,
    fun llm key prompt history s h1 h2 h3 h4 => ?_⟩
  · unfold rewrite_follow_up
    rw [if_neg h1, if_neg (by simp [h2])]
    simp only [h3]
    simp [h4, h5]
  · unfold rewrite_follow_up
    rw [if_neg h1, if_neg (by simp [h2])]
    simp only [h3]
    rcases h4 with h4 | h4
    · simp [h4]
    · have hno : ¬ (stripStr s ≠ "" ∧ (stripStr s).length < 500) := by
        rintro ⟨-, hlt⟩
        omega
      simp [hno]

/-- C1 witness: concrete runs of both branches. The oracle answers with a
short rewritten query (accepted) and, at another input, the empty-history
case returns the prompt with no event. -/
theorem c1_rewrite_follow_up_witness :
    rewrite_follow_up (fun _ => .ok " rear main seal replacement ")
        (some "k") "Should I just replace it?" [] =
      ("Should I just replace it?", []) ∧
    rewrite_follow_up (fun _ => .ok " rear main seal replacement ")
        (some "k") "Should I just replace it?"
        [{ role := Role.user, content := "My rear main seal leaks" }] =
      ("rear main seal replacement", [NetEv.llmRewrite]) :=
  ⟨c1_rewrite_follow_up.1 _ (some "k") _,
   c1_rewrite_follow_up.2.1 _ (some "k") _
      [{ role := Role.user, content := "My rear main seal leaks" }]
      " rear main seal replacement " (by decide) (by decide) rfl
      (by decide) (by decide)⟩

/-- C8: the rewriter is total and always yields a usable string: the result
is either the original prompt or an accepted rewrite (nonempty, under 500
code points); in particular every oracle failure is swallowed and falls back
to the prompt. -/
theorem c8_rewrite_swallows_failures :
    (∀ (llm : String → Except String String) (key : Option String)
        (prompt : String) (history : List ConvTurn),
      (rewrite_follow_up llm key prompt history).1 = prompt ∨
      ((rewrite_follow_up llm key prompt history).1 ≠ "" ∧
       (rewrite_follow_up llm key prompt history).1.length < 500)) ∧
    (∀ (llm : String → Except String String) (key : Option String)
        (prompt : String) (history : List ConvTurn) (e : String),
      llm (rewriteUserMsg (convText history) prompt) = .error e →
      (rewrite_follow_up llm key prompt history).1 = prompt) := by
  constructor
  · intro llm key prompt history
    by_cases h1 : history = []
    · left
      simp [rewrite_follow_up, h1]
    by_cases h2 : keyFalsy key = true
    · left
      simp [rewrite_follow_up, h1, h2]
    cases hllm : llm (rewriteUserMsg (convText history) prompt) with
    | error e =>
      left
      simp [rewrite_follow_up, h1, h2, hllm]
    | ok s =>
      by_cases h4 : stripStr s ≠ "" ∧ (stripStr s).length < 500
      · right
        have hres : rewrite_follow_up llm key prompt history =
            (stripStr s, [NetEv.llmRewrite]) := by
          unfold rewrite_follow_up
          rw [if_neg h1, if_neg h2]
          simp only [hllm]
          simp [h4.1, h4.2]
        rw [hres]
        exact h4
      · left
        simp [rewrite_follow_up, h1, h2, hllm, h4]
  · intro llm key prompt history e hllm
    by_cases h1 : history = []
    · simp [rewrite_follow_up, h1]
    by_cases h2 : keyFalsy key = true
    · simp [rewrite_follow_up, h1, h2]
    simp [rewrite_follow_up, h1, h2, hllm]

/-- C8 witness: a failing oracle still yields the original prompt. -/
theorem c8_rewrite_swallows_failures_witness :
    (rewrite_follow_up (fun _ => .error "connection timeout") (some "k")
        "rough idle" [{ role := Role.user, content := "hi" }]).1 =
      "rough idle" :=
  c8_rewrite_swallows_failures.2 _ (some "k") "rough idle"
    [{ role := Role.user, content := "hi" }] "connection timeout" rfl

/-- C7: the transcript is built from at most the last four turns of the
history in order (a suffix of length at most four); an assistant turn longer
than 300 code points contributes exactly its first 300 code points plus an
ellipsis marker, a shorter one is kept whole; a user turn with attached
images gets the image-count tag appended. -/
theorem c7_rewrite_transcript :
    (∀ history : List ConvTurn,
      convText history = joinSep "\n" ((lastN 4 history).map convLine) ∧
      (lastN 4 history).length ≤ 4 ∧
      List.IsSuffix (lastN 4 history) history) ∧
    (∀ msg : ConvTurn, msg.role = Role.assistant →
      msg.content.length ≤ 300 →
      convLine msg = "Assistant: " ++ msg.content) ∧
    (∀ msg : ConvTurn, msg.role = Role.assistant →
      msg.content.length > 300 →
      convLine msg = "Assistant: " ++ (takeStr 300 msg.content ++ "...") ∧
      (takeStr 300 msg.content).length = 300) ∧
    (∀ msg : ConvTurn, msg.role = Role.user → msg.images ≠ [] →
      convLine msg = "User: " ++ (msg.content ++ " [attached " ++
        toString msg.images.length ++ " photo(s)]")) := by
  refine ⟨fun history => ⟨rfl, ?_, ?_⟩, fun msg hr hlen => ?_,
    fun msg hr hlen => ⟨?_, ?_⟩, fun msg hr himg => ?_⟩
  · simp only [lastN, List.length_drop]
    omega
  · exact List.drop_suffix _ _
  · have : ¬ (msg.role = Role.user ∧ msg.images ≠ []) := by
      rintro ⟨hu, -⟩
      rw [hr] at hu
      exact absurd hu (by decide)
    have h2 : ¬ (msg.role = Role.assistant ∧ msg.content.length > 300) := by
      rintro ⟨-, hgt⟩
      omega
    have h3 : ¬ (300 < msg.content.length) := by omega
    simp [convLine, this, h2, h3, hr]
  · have : ¬ (msg.role = Role.user ∧ msg.images ≠ []) := by
      rintro ⟨hu, -⟩
      rw [hr] at hu
      exact absurd hu (by decide)
    simp [convLine, this, hr, hlen]
  · show (String.mk (msg.content.data.take 300)).length = 300
    have : (msg.content.data.take 300).length = 300 := by
      have hl : msg.content.data.length = msg.content.length := rfl
      rw [List.length_take]
      omega
    exact this
  · have hne : msg.role ≠ Role.assistant := by
      rw [hr]
      decide
    simp [convLine, hr, himg, hne]

/-- A five-turn history used to exercise the last-four window. -/
def fiveTurns : List ConvTurn :=
  [⟨Role.user, "a", []⟩, ⟨Role.user, "b", []⟩, ⟨Role.user, "c", []⟩,
   ⟨Role.user, "d", []⟩, ⟨Role.user, "e", []⟩]

/-- A user turn carrying two attached images. -/
def userImgTurn : ConvTurn := ⟨Role.user, "hi", ["k1", "k2"]⟩

/-- C7 witness: a history of five turns keeps only the last four, and a user
turn with two images gets the image-count tag. -/
theorem c7_rewrite_transcript_witness :
    (lastN 4 fiveTurns).length ≤ 4 ∧
    convLine userImgTurn = "User: hi [attached 2 photo(s)]" :=
  ⟨(c7_rewrite_transcript.1 fiveTurns).2.1,
   c7_rewrite_transcript.2.2.2 userImgTurn rfl (by decide)⟩

/-! ## chat.py ask and the app.py chat handler (answer pipeline) -/

/-- search from src/api/chat.py: embed the query, then query the vector
index. The embedding vector values are opaque to every modelled claim, so
they are carried as integers; the two oracles stand for the HuggingFace call
and the Pinecone query, and the event list records that both were issued. -/
def searchM (embed : String → List Int) (index : List Int → List Passage)
    (query : String) : List Passage × List NetEv :=
  (index (embed query), [NetEv.embed, NetEv.indexQuery])

/-- The missing-or-placeholder test both answer paths apply to
ANTHROPIC_API_KEY: Python falsiness or the literal placeholder value. -/
def keyMissingOrPlaceholder (k : Option String) : Bool :=
  keyFalsy k || k.getD "" == "your_anthropic_api_key_here"

/-- The user-facing configuration message ask returns (its leading glyph is
stored in the source as code points 201A 00F9 00E5, reproduced verbatim). -/
def configErrMsg : String :=
  "‚ùå Please set your ANTHROPIC_API_KEY in .env\n   Get one at: https://console.anthropic.com/"

/-- _car_description from src/api/chat.py. -/
def car_description (car_profile : Option CarProfile) : String :=
  match car_profile with
  | none => "their Porsche 993"
  | some c =>
    let parts := (if c.year ≠ "" then [c.year] else []) ++ ["Porsche 993"] ++
      (if c.model ≠ "" then [c.model] else []) ++
      (if c.transmission ≠ "" then [c.transmission] else [])
    let desc := joinSep " " parts
    if c.mileage ≠ "" then desc ++ " (~" ++ c.mileage ++ " miles)" else desc

/-- The user message ask builds around the question and context block. -/
def askUserMsg (car_desc question context : String) : String :=
  "Based on the following knowledge from Porsche forums and technical articles,\nanswer this question about the owner\x27s " ++ car_desc ++ ":\n\nQUESTION: " ++ question ++ "\n\nFORUM KNOWLEDGE:\n" ++ context ++ "\n\nPlease provide a helpful, practical answer based on this knowledge. Cite sources\nwhen referencing specific advice. If the sources are insufficient, say so."

/-- The url-keyed citation dedup loop shared by ask, ask_stream and the
app.py handler: keep a passage when its url is nonempty and unseen. -/
def dedupByUrlAux : List String → List Passage → List Passage
  | _, [] => []
  | seen, s :: rest =>
    if s.url ≠ "" ∧ s.url ∉ seen then s :: dedupByUrlAux (s.url :: seen) rest
    else dedupByUrlAux seen rest

/-- The unique_urls selection: the loop above ranges over sources[:5], so
the five-cap is applied to the passages before deduplication. -/
def unique_urls (sources : List Passage) : List Passage :=
  dedupByUrlAux [] (sources.take 5)

/-- One formatted citation line of ask (the dash between title and url is
stored in the source as code points 201A 00C4 00EE). -/
def citeLine (s : Passage) : String :=
  "  - " ++ takeStr 60 s.title ++ " ‚Äî " ++ s.url

/-- The sources-block header of ask (its glyph is stored in the source as
code points F8FF 00FC 00EC 00F6). -/
def sourcesHeader : String := "\n\nüìö Sources:\n"

/-- ask from src/api/chat.py: the placeholder check first, then search,
context and prompt assembly, one llm completion, the citation block from
unique_urls, and the parts block extracted from the complete answer. The
llm oracle maps (system prompt, user message) to the completion text. -/
def ask (api_key : Option String) (embed : String → List Int)
    (index : List Int → List Passage) (llm : String → String → String)
    (question : String) (car_profile : Option CarProfile) :
    String × List NetEv :=
  if keyMissingOrPlaceholder api_key then (configErrMsg, [])
  else
    let src := searchM embed index question
    let sources := src.1
    let context := build_context sources
    let car_desc := car_description car_profile
    let system_prompt := build_system_prompt car_profile
    let user_message := askUserMsg car_desc question context
    let answer := llm system_prompt user_message
    let cite := (unique_urls sources).map citeLine
    let answer := if cite ≠ [] then
        answer ++ (sourcesHeader ++ joinSep "\n" cite)
      else answer
    let part_numbers := extract_part_numbers answer
    let answer := if part_numbers ≠ [] then
        answer ++ generate_parts_links part_numbers
      else answer
    (answer, src.2 ++ [NetEv.llmComplete])

/-- Outcome of the app.py chat-input handler: the st.error/st.stop path or
a completed answer appended to the session. -/
inductive UiOutcome where
  | errorStop (msg : String)
  | answered (full : String)
deriving DecidableEq, Repr

/-- The configuration message the app.py handler shows. -/
def uiErrMsg : String := "Please set ANTHROPIC_API_KEY in secrets."

/-- The user message the app.py handler builds (it ends right after the
knowledge sentence, without the citation instruction ask appends). -/
def uiUserMsg (car_desc question context : String) : String :=
  "Based on the following knowledge from Porsche forums and technical articles,\nanswer this question about the owner\x27s " ++ car_desc ++ ":\n\nQUESTION: " ++ question ++ "\n\nFORUM KNOWLEDGE:\n" ++ context ++ "\n\nPlease provide a helpful, practical answer based on this knowledge."

/-- The stored role strings of the session messages. -/
def roleStr (r : Role) : String :=
  match r with
  | Role.user => "user"
  | Role.assistant => "assistant"

/-- One markdown citation line of the app.py handler. -/
def uiCiteLine (t : String × String × String) : String :=
  "- [" ++ t.1 ++ "](" ++ t.2.1 ++ ") *(" ++ t.2.2 ++ ")*"

/-- The chat-input handler of src/ui/app.py (module level), for a session
whose message list already ends with the freshly appended user turn: rewrite
the follow-up against the history without that turn, search, build context
and prompts, and only then check ANTHROPIC_API_KEY, stopping with the error
message when it is missing or the placeholder; otherwise stream the answer
and append the citation and parts blocks. -/
def uiChatHandler (api_key : Option String)
    (llmRw : String → Except String String)
    (embed : String → List Int) (index : List Int → List Passage)
    (llmStream : String → List (String × String) → String)
    (messages : List ConvTurn) (prompt : String)
    (car_profile : Option CarProfile) : UiOutcome × List NetEv :=
  let rw := rewrite_follow_up llmRw api_key prompt messages.dropLast
  let search_query := rw.1
  let src := searchM embed index search_query
  let sources := src.1
  let context := build_context sources
  let system_prompt := build_system_prompt car_profile
  let car_desc := car_description car_profile
  let previous := lastN 10 messages.dropLast
  let claude_messages := previous.map (fun m => (roleStr m.role, m.content))
  let user_message := uiUserMsg car_desc prompt context
  let claude_messages := claude_messages ++ [("user", user_message)]
  if keyMissingOrPlaceholder api_key then
    (UiOutcome.errorStop uiErrMsg, rw.2 ++ src.2)
  else
    let response := llmStream system_prompt claude_messages
    let triples := (unique_urls sources).map
      (fun s => (takeStr 60 s.title, s.url, s.source))
    let source_md := if triples ≠ [] then
        "\n\n---\n**Sources**\n" ++ joinSep "\n" (triples.map uiCiteLine)
      else ""
    let parts_md := generate_parts_links (extract_part_numbers response)
    (UiOutcome.answered (response ++ source_md ++ parts_md),
      rw.2 ++ src.2 ++ [NetEv.llmStream])

/-- C2 counterexample: with the key set to the placeholder value, the app.py
chat handler still performs the retrieval work (the embedding call and the
vector-index query are both issued) before it stops with the configuration
message, so the claimed short-circuit before any retrieval does not hold on
the cited UI path. -/
theorem c2_counterexample_ui_retrieves_first :
    uiChatHandler (some "your_anthropic_api_key_here")
        (fun _ => .error "e") (fun _ => []) (fun _ => []) (fun _ _ => "")
        [⟨Role.user, "q", []⟩] "q" none =
      (UiOutcome.errorStop uiErrMsg, [NetEv.embed, NetEv.indexQuery]) := by
  decide

/-- C2 amended: in the chat.py pipeline (ask and ask_stream) a missing or
placeholder key returns the configuration message with no network event at
all, before any retrieval; the app.py handler instead checks the key only
after the rewrite and the retrieval, so with a bad key it still issues the
embedding and index calls and only then stops with its configuration
message. -/
theorem c2_key_check_placement :
    (∀ (key : Option String) (embed : String → List Int)
        (index : List Int → List Passage) (llm : String → String → String)
        (question : String) (profile : Option CarProfile),
      keyMissingOrPlaceholder key = true →
      ask key embed index llm question profile = (configErrMsg, [])) ∧
    (∀ (key : Option String) (llmRw : String → Except String String)
        (embed : String → List Int) (index : List Int → List Passage)
        (llmStream : String → List (String × String) → String)
        (messages : List ConvTurn) (prompt : String)
        (profile : Option CarProfile),
      keyMissingOrPlaceholder key = true →
      (uiChatHandler key llmRw embed index llmStream messages prompt
          profile).1 = UiOutcome.errorStop uiErrMsg ∧
      NetEv.embed ∈ (uiChatHandler key llmRw embed index llmStream messages
          prompt profile).2 ∧
      NetEv.indexQuery ∈ (uiChatHandler key llmRw embed index llmStream
          messages prompt profile).2) := by
  constructor
  · intro key embed index llm question profile h
    simp [ask, h]
  · intro key llmRw embed index llmStream messages prompt profile h
    refine ⟨?_, ?_, ?_⟩ <;> simp [uiChatHandler, searchM, h]

/-- C2 witness: both amended statements at the placeholder key and concrete
oracles. -/
theorem c2_key_check_placement_witness :
    ask (some "your_anthropic_api_key_here") (fun _ => []) (fun _ => [])
        (fun _ _ => "") "q" none = (configErrMsg, []) ∧
    (uiChatHandler (some "your_anthropic_api_key_here") (fun _ => .error "e")
        (fun _ => []) (fun _ => []) (fun _ _ => "") [⟨Role.user, "q", []⟩]
        "q" none).1 = UiOutcome.errorStop uiErrMsg :=
  ⟨c2_key_check_placement.1 (some "your_anthropic_api_key_here") _ _ _ "q"
      none (by decide),
   (c2_key_check_placement.2 (some "your_anthropic_api_key_here") _ _ _ _
      [⟨Role.user, "q", []⟩] "q" none (by decide)).1⟩

/-! Lemmas for the citation dedup -/

theorem dedupByUrlAux_sublist (l : List Passage) :
    ∀ seen : List String, List.Sublist (dedupByUrlAux seen l) l := by
  induction l with
  | nil => intro seen; simp [dedupByUrlAux]
  | cons s rest ih =>
    intro seen
    simp only [dedupByUrlAux]
    by_cases h : s.url ≠ "" ∧ s.url ∉ seen
    · rw [if_pos h]
      exact List.Sublist.cons₂ s (ih (s.url :: seen))
    · rw [if_neg h]
      exact List.Sublist.cons s (ih seen)

theorem dedupByUrlAux_url_ne (l : List Passage) :
    ∀ seen : List String, ∀ p ∈ dedupByUrlAux seen l, p.url ≠ "" := by
  induction l with
  | nil => intro seen p hp; simp [dedupByUrlAux] at hp
  | cons s rest ih =>
    intro seen p hp
    simp only [dedupByUrlAux] at hp
    by_cases h : s.url ≠ "" ∧ s.url ∉ seen
    · rw [if_pos h] at hp
      rcases List.mem_cons.mp hp with rfl | hp
      · exact h.1
      · exact ih (s.url :: seen) p hp
    · rw [if_neg h] at hp
      exact ih seen p hp

theorem dedupByUrlAux_url_not_seen (l : List Passage) :
    ∀ seen : List String, ∀ p ∈ dedupByUrlAux seen l, p.url ∉ seen := by
  induction l with
  | nil => intro seen p hp; simp [dedupByUrlAux] at hp
  | cons s rest ih =>
    intro seen p hp
    simp only [dedupByUrlAux] at hp
    by_cases h : s.url ≠ "" ∧ s.url ∉ seen
    · rw [if_pos h] at hp
      rcases List.mem_cons.mp hp with rfl | hp
      · exact h.2
      · intro hs
        exact ih (s.url :: seen) p hp (List.mem_cons_of_mem _ hs)
    · rw [if_neg h] at hp
      exact ih seen p hp

theorem dedupByUrlAux_nodup_urls (l : List Passage) :
    ∀ seen : List String, ((dedupByUrlAux seen l).map Passage.url).Nodup := by
  induction l with
  | nil => intro seen; simp [dedupByUrlAux]
  | cons s rest ih =>
    intro seen
    simp only [dedupByUrlAux]
    by_cases h : s.url ≠ "" ∧ s.url ∉ seen
    · rw [if_pos h]
      simp only [List.map_cons, List.nodup_cons]
      refine ⟨?_, ih (s.url :: seen)⟩
      intro hmem
      rcases List.mem_map.mp hmem with ⟨p, hp, hpu⟩
      exact dedupByUrlAux_url_not_seen rest (s.url :: seen) p hp
        (hpu ▸ List.mem_cons_self _ _)
    · rw [if_neg h]
      exact ih seen

/-- The six-passage retrieval where the claimed dedup-then-cap order and the
implemented cap-then-dedup order differ: the first two passages share a url
and a sixth distinct url exists beyond the cap. -/
def sixSources : List Passage :=
  [{ url := "u1", title := "a" }, { url := "u1", title := "b" },
   { url := "u2", title := "c" }, { url := "u3", title := "d" },
   { url := "u4", title := "e" }, { url := "u5", title := "f" }]

/-- Modelled from the spec: the citation selection as the claim words it,
deduplicating all retrieved passages by url (first occurrence kept) and then
capping the result at five entries. Refinement comparison only. -/
def citations_claim (sources : List Passage) : List Passage :=
  (dedupByUrlAux [] sources).take 5

/-- C6 counterexample: on six passages whose first two share a url, the code
keeps only four citations (the cap is applied to the passages before the
dedup), while the claimed dedup-then-cap order would keep five; the two
selections differ. -/
theorem c6_citations_counterexample :
    (unique_urls sixSources).length = 4 ∧
    (citations_claim sixSources).length = 5 ∧
    unique_urls sixSources ≠ citations_claim sixSources := by
  refine ⟨by decide, by decide, by decide⟩

/-- C6 amended: the citation block deduplicates by url keeping first
occurrences, but the five-entry cap is applied to the retrieved passages
before the dedup (the loop ranges over the first five passages only), so
the result is an order-preserving selection from the first five passages
with pairwise distinct, nonempty urls and at most five entries. -/
theorem c6_citations_amended :
    (∀ sources : List Passage,
      unique_urls sources = dedupByUrlAux [] (sources.take 5)) ∧
    (∀ sources : List Passage,
      List.Sublist (unique_urls sources) (sources.take 5)) ∧
    (∀ sources : List Passage, (unique_urls sources).length ≤ 5) ∧
    (∀ sources : List Passage,
      ((unique_urls sources).map Passage.url).Nodup) ∧
    (∀ sources : List Passage, ∀ p ∈ unique_urls sources, p.url ≠ "") := by
  refine ⟨fun sources => rfl, fun sources => dedupByUrlAux_sublist _ [],
    fun sources => ?_, fun sources => dedupByUrlAux_nodup_urls _ [],
    fun sources p hp => dedupByUrlAux_url_ne _ [] p hp⟩
  have h1 := (dedupByUrlAux_sublist (sources.take 5) []).length_le
  have h2 : (sources.take 5).length ≤ 5 := by
    simp [List.length_take]
  exact le_trans h1 h2

/-- C6 witness: the amended membership statement at the six-passage input. -/
theorem c6_citations_amended_witness :
    ({ url := "u1", title := "a" } : Passage) ∈ unique_urls sixSources ∧
    (({ url := "u1", title := "a" } : Passage).url ≠ "") :=
  ⟨by decide,
   c6_citations_amended.2.2.2.2 sixSources { url := "u1", title := "a" }
      (by decide)⟩

end P993
